import Mathlib

/-!
Verification of the transaction/savepoint management core of the
`wongio123/cockroach` repository against its natural-language specification.

The repository material under `src/` consists of the data-driven savepoint
test harness (`TestSavepoints` and its helpers `isOpenTxn`, `erase`,
`updateProgress`, `getTxnStatus`, `showSavepointStatus`) and the op-generation
registration for `scpb.ColumnName`.  The session transaction controller, the
savepoint stack and the retry coordinator themselves are not part of `src/`
(only their test is), so those components are modelled from the specification
(sections 3, 4.1, 4.2, 4.3, 4.4, 6, 7), as indicated on each definition.
-/

namespace Cockroach

/-- Modelled from the spec (section 3): the enumerated session transaction
status.  `CommitWait` is explicitly not required for single-statement-batch
semantics and is omitted. -/
inductive TxnState where
  | NoTxn
  | Open
  | Aborted
deriving DecidableEq, Repr

/-- Modelled from the spec (section 3): a savepoint with its case-sensitive
name (case folding happens in the SQL layer, outside this core), restart flag
and the opaque snapshot token obtained from the store adapter at creation
time.  The store adapter is modelled as a growing write log, so the token is
the length of the write log at creation. -/
structure Savepoint where
  name : String
  isRestart : Bool
  snapshotToken : Nat
deriving DecidableEq, Repr, Inhabited

/-- Modelled from the spec (section 7): the closed list of error kinds. -/
inductive TxnError where
  | TransactionAbortedError
  | SavepointNotFoundError
  | InvalidRestartPlacementError
  | RetryableStoreError
  | NonRetryableStoreError
  | CommitFailedError
deriving DecidableEq, Repr

/-- Modelled from the spec (section 3): classification of the outcome of an
ordinary statement, supplied by the external store when the statement thunk
runs. -/
inductive WriteOutcome where
  | success
  | retryable
  | nonRetryable
deriving DecidableEq, Repr

/-- Modelled from the spec (sections 4.1 and 4.4): the statement boundaries
the session transaction controller receives.  `commit` carries the outcome of
the store-side commit (the table of section 4.1 distinguishes the two rows
"COMMIT" and "COMMIT, store commit fails").  `write` is an ordinary statement
together with the outcome reported by the store adapter; per section 6 the
store adapter's only ordinary operation is `Write`. -/
inductive Stmt where
  | begin
  | commit (storeOk : Bool)
  | rollback
  | savepoint (name : String) (isRestart : Bool)
  | release (name : String)
  | rollbackTo (name : String)
  | write (op : Nat) (outcome : WriteOutcome)
deriving DecidableEq, Repr

/-- Modelled from the spec (section 3): the per-connection session.  The
store adapter is embedded as the write log of the open transaction
(`writes`, oldest first) plus the durable state (`committed`); `epoch` is the
conflict epoch bumped by the retry coordinator. -/
structure Session where
  txnState : TxnState
  stack : List Savepoint
  writes : List Nat
  committed : List Nat
  epoch : Nat
deriving DecidableEq, Repr

/-- Modelled from the spec (section 3): session at connection open. -/
def initSession : Session :=
  { txnState := .NoTxn, stack := [], writes := [], committed := [], epoch := 0 }

/-- Modelled from the spec (section 4.2, `FindFromTop`): scan from the top of
the stack (head of the list) for the first savepoint with the given name and
return the stack from that entry down, or `none` when the name is absent. -/
def popToSavepoint : List Savepoint → String → Option (List Savepoint)
  | [], _ => none
  | sp :: rest, n => if sp.name = n then some (sp :: rest) else popToSavepoint rest n

/-- Modelled from the spec (section 4.3): the retry coordinator locates the
restart savepoint (scanning from the top; by the placement rule of section
4.2 it can only sit at the bottom of the stack) and returns the stack from it
down, or `none` when no restart savepoint is present. -/
def popToRestart : List Savepoint → Option (List Savepoint)
  | [] => none
  | sp :: rest => if sp.isRestart then some (sp :: rest) else popToRestart rest

/-- Modelled from the spec (sections 4.1-4.4): the session transaction
controller, one entry point per statement boundary, returning the mutated
session and the statement error, if any.  Rows of the section 4.1 table that
do not exist (BEGIN while a transaction is open, transaction control while no
transaction is in progress) are modelled as no-ops; RELEASE and ROLLBACK TO
outside a transaction still report `SavepointNotFoundError` for an absent
name per the unconditional error contract of section 7. -/
def execStmt (s : Session) (stmt : Stmt) : Session × Option TxnError :=
  match s.txnState, stmt with
  | .NoTxn, .begin =>
    ({ s with txnState := .Open, stack := [], writes := [] }, none)
  | .NoTxn, .commit _ => (s, none)
  | .NoTxn, .rollback => (s, none)
  | .NoTxn, .savepoint _ _ => (s, none)
  | .NoTxn, .release n =>
    match popToSavepoint s.stack n with
    | none => (s, some .SavepointNotFoundError)
    | some _ => (s, none)
  | .NoTxn, .rollbackTo n =>
    match popToSavepoint s.stack n with
    | none => (s, some .SavepointNotFoundError)
    | some _ => (s, none)
  | .NoTxn, .write op outcome =>
    match outcome with
    | .success => ({ s with committed := s.committed ++ [op] }, none)
    | .retryable => (s, some .RetryableStoreError)
    | .nonRetryable => (s, some .NonRetryableStoreError)
  | .Open, .begin => (s, none)
  | .Open, .commit storeOk =>
    if storeOk then
      ({ s with txnState := .NoTxn, stack := [],
                writes := [], committed := s.committed ++ s.writes }, none)
    else
      ({ s with txnState := .Aborted }, some .CommitFailedError)
  | .Open, .rollback =>
    ({ s with txnState := .NoTxn, stack := [], writes := [] }, none)
  | .Open, .savepoint n r =>
    if r && (!s.stack.isEmpty || !s.writes.isEmpty) then
      (s, some .InvalidRestartPlacementError)
    else
      ({ s with stack := ⟨n, r, s.writes.length⟩ :: s.stack }, none)
  | .Open, .release n =>
    match popToSavepoint s.stack n with
    | none => (s, some .SavepointNotFoundError)
    | some found => ({ s with stack := found.tail }, none)
  | .Open, .rollbackTo n =>
    match popToSavepoint s.stack n with
    | none => (s, some .SavepointNotFoundError)
    | some found =>
      ({ s with stack := found,
                writes := s.writes.take ((found.headI).snapshotToken) }, none)
  | .Open, .write op outcome =>
    match outcome with
    | .success => ({ s with writes := s.writes ++ [op] }, none)
    | .nonRetryable => ({ s with txnState := .Aborted }, some .NonRetryableStoreError)
    | .retryable =>
      match popToRestart s.stack with
      | none => ({ s with txnState := .Aborted }, some .RetryableStoreError)
      | some found =>
        ({ s with stack := found,
                  writes := s.writes.take ((found.headI).snapshotToken),
                  epoch := s.epoch + 1 }, none)
  | .Aborted, .rollback =>
    ({ s with txnState := .NoTxn, stack := [], writes := [] }, none)
  | .Aborted, .rollbackTo n =>
    match popToSavepoint s.stack n with
    | none => (s, some .SavepointNotFoundError)
    | some found =>
      ({ s with txnState := .Open, stack := found,
                writes := s.writes.take ((found.headI).snapshotToken) }, none)
  | .Aborted, _ => (s, some .TransactionAbortedError)

/-- Modelled from the spec (section 4.4): sequential execution of a batch of
statement boundaries, discarding per-statement outcomes. -/
def runStmts (s : Session) (stmts : List Stmt) : Session :=
  stmts.foldl (fun acc stmt => (execStmt acc stmt).1) s

/-- Modelled from the spec (section 4.4): a batch of ordinary statements all
of which succeed at the store. -/
def runWrites (s : Session) (ops : List Nat) : Session :=
  runStmts s (ops.map (fun op => Stmt.write op .success))

/-- A session is reachable when some statement sequence produces it from the
session created at connection open. -/
def Reachable (s : Session) : Prop :=
  ∃ stmts : List Stmt, runStmts initSession stmts = s

/-- The stack well-formedness induced by the restart placement rule of spec
section 4.2: every savepoint other than the bottom-most one is a plain
savepoint, hence a restart savepoint can only sit at the bottom. -/
def restartAtBottom (l : List Savepoint) : Prop :=
  ∀ sp ∈ l.dropLast, sp.isRestart = false

/-- Modelled from the spec (section 6): `CurrentStatus(session)`, read-only
introspection answering SHOW TRANSACTION STATUS; returns the status together
with the (unchanged) session. -/
def CurrentStatus (s : Session) : TxnState × Session :=
  (s.txnState, s)

/-- Modelled from the spec (section 6): `SavepointNames(session)`, read-only
introspection answering SHOW SAVEPOINT STATUS; returns the ordered sequence
of (name, isRestart) pairs from top to bottom together with the (unchanged)
session. -/
def SavepointNames (s : Session) : List (String × Bool) × Session :=
  (s.stack.map (fun sp => (sp.name, sp.isRestart)), s)

/-! ### The section 4.1 transition table

The table of spec section 4.1 gives, for a current state and a statement
boundary, the resulting state; its Condition column refers to the savepoint
stack, so the folded value carries the stack abstracted to its
(name, isRestart) pairs. -/

/-- Modelled from the spec (section 4.2, `FindFromTop`), on the abstracted
stack of (name, isRestart) pairs. -/
def popToName : List (String × Bool) → String → Option (List (String × Bool))
  | [], _ => none
  | p :: rest, n => if p.1 = n then some (p :: rest) else popToName rest n

/-- Modelled from the spec (section 4.1): one row of the transition table.
An ordinary statement, and a boundary with no table row (BEGIN while Open,
transaction control while NoTxn), yield `none`, so table folds are defined
exactly on sequences of control statements covered by the table.  In a
control-only run no write ever occurs, so the restart-placement condition of
section 4.2 reduces to non-emptiness of the stack. -/
def tableStep : TxnState × List (String × Bool) → Stmt → Option (TxnState × List (String × Bool))
  | (.NoTxn, _), .begin => some (.Open, [])
  | (.NoTxn, _), _ => none
  | (.Open, _), .begin => none
  | (.Open, _), .commit true => some (.NoTxn, [])
  | (.Open, st), .commit false => some (.Aborted, st)
  | (.Open, _), .rollback => some (.NoTxn, [])
  | (.Open, st), .savepoint n r =>
    if r && !st.isEmpty then some (.Open, st) else some (.Open, (n, r) :: st)
  | (.Open, st), .release n =>
    match popToName st n with
    | none => some (.Open, st)
    | some found => some (.Open, found.tail)
  | (.Open, st), .rollbackTo n =>
    match popToName st n with
    | none => some (.Open, st)
    | some found => some (.Open, found)
  | (.Open, _), .write _ _ => none
  | (.Aborted, _), .rollback => some (.NoTxn, [])
  | (.Aborted, st), .rollbackTo n =>
    match popToName st n with
    | none => some (.Aborted, st)
    | some found => some (.Open, found)
  | (.Aborted, _), .write _ _ => none
  | (.Aborted, st), _ => some (.Aborted, st)

/-- Modelled from the spec (section 8): folding a statement sequence through
the transition table, undefined as soon as one step has no table row. -/
def tableFold : TxnState × List (String × Bool) → List Stmt → Option (TxnState × List (String × Bool))
  | p, [] => some p
  | p, c :: cs =>
    match tableStep p c with
    | none => none
    | some q => tableFold q cs

/-- Abstraction of a session to the view the section 4.1 table acts on. -/
def absSession (s : Session) : TxnState × List (String × Bool) :=
  (s.txnState, s.stack.map (fun sp => (sp.name, sp.isRestart)))

/-! ### The test harness (src/unnamed/part_000)

The helpers of `TestSavepoints` are pure up to the SQL round trips; they are
embedded over the values those round trips deliver (the status string, the
rows of the progress table, the rows of SHOW SAVEPOINT STATUS). -/

/-- Modelled from the spec: the display string of the `Open` state
(`sql.OpenStateStr`, declared outside `src/`). -/
def OpenStateStr : String := "Open"

/-- Modelled from the spec: the display string of the `NoTxn` state
(`sql.NoTxnStateStr`, declared outside `src/`). -/
def NoTxnStateStr : String := "NoTxn"

/-- Modelled from the spec: the display string of the `Aborted` state. -/
def AbortedStateStr : String := "Aborted"

/-- From the source (`isOpenTxn`, part_000 lines 227-229). -/
def isOpenTxn (status : String) : Bool :=
  status == OpenStateStr || status == NoTxnStateStr

/-- From the source (the `erase` closure, part_000 lines 94-102): reset every
cell of the progress bar to a dot, or to the letter X when the status is not
an open-transaction status. -/
def erase (status : String) (progressBar : Array Char) : Array Char :=
  let char := if !(isOpenTxn status) then 'X' else '.'
  progressBar.map (fun _ => char)

/-- From the source (part_000 lines 188-195): the main loop writes a
before-statement marker into the progress table exactly when the status
before the statement is an open-transaction status. -/
def writesBeforeMarker (beforeStatus : String) : Bool :=
  isOpenTxn beforeStatus

/-- From the source (part_000 line 93): the progress bar holds one byte per
statement of the input, zero-initialized by the Go allocation. -/
def mkProgressBar (stmts : List String) : Array Char :=
  Array.mkArray stmts.length (Char.ofNat 0)

/-- From the source (the `updateProgress` closure, part_000 lines 110-128):
fold the values read from the progress table into the bar; a value outside
1..len(progressBar) fails the test, modelled as `none`; an in-range value n
sets cell n-1 to the marker character (the hash sign, byte 35). -/
def updateProgress : List Int → Array Char → Option (Array Char)
  | [], progressBar => some progressBar
  | n :: rest, progressBar =>
    if n < 1 || n > (progressBar.size : Int) then none
    else updateProgress rest (progressBar.setD (n - 1).toNat (Char.ofNat 35))

/-- From the source (the `showSavepointStatus` closure, part_000 lines
150-165): the body of the row loop.  The loop state is (buffer contents,
comma, hasSavepoints); each iteration suffixes "(r)" to the name of a restart
savepoint, writes the comma then the name, records that a savepoint was seen
and sets the comma to the greater-than sign. -/
def spStatusStep (st : String × String × Bool) (row : String × Bool) : String × String × Bool :=
  let name := if row.2 then row.1 ++ "(r)" else row.1
  (st.1 ++ st.2.1 ++ name, ">", true)

/-- From the source (the `showSavepointStatus` closure, part_000 lines
143-169): render the rows of SHOW SAVEPOINT STATUS into the buffer; when the
loop saw no savepoint, "(none)" is written instead. -/
def showSavepointStatus (rows : List (String × Bool)) : String :=
  let folded := rows.foldl spStatusStep ("", "", false)
  if folded.2.2 then folded.1 else folded.1 ++ "(none)"

/-- Stated from the claim wording: the display form of one savepoint row. -/
def displayName (row : String × Bool) : String :=
  row.1 ++ if row.2 then "(r)" else ""

/-- Stated from the claim wording, for comparison with the source rendering:
the savepoint names top-first joined by the greater-than sign, with "(r)"
suffixed to restart savepoints, and "(none)" for an empty stack. -/
def savepointDisplaySpec (rows : List (String × Bool)) : String :=
  if rows.isEmpty then "(none)"
  else String.intercalate ">" (rows.map displayName)

/-! ### The ColumnName op-generation registration
(src/pkg/sql/schemachanger/scplan/opgen/opgen_column_name.go) -/

namespace Opgen

/-- From the source: the `scpb.ColumnName` element; descriptor and column IDs
are modelled as naturals. -/
structure ColumnName where
  TableID : Nat
  ColumnID : Nat
  Name : String
deriving DecidableEq, Repr

/-- From the source: the `scop.SetColumnName` operation. -/
structure SetColumnName where
  TableID : Nat
  ColumnID : Nat
  Name : String
deriving DecidableEq, Repr

/-- From the source: the `scop.Op` interface; only the variant emitted by the
ColumnName registration is needed. -/
inductive Op where
  | setColumnName (op : SetColumnName)
deriving DecidableEq, Repr

/-- From the source: the `scpb.Status` values used by the registration. -/
inductive Status where
  | PUBLIC
  | ABSENT
deriving DecidableEq, Repr

/-- From the source: the `scop.Phase` values used by the registration. -/
inductive Phase where
  | PreCommitPhase
  | PostCommitPhase
deriving DecidableEq, Repr

/-- From the source: one `to(...)` clause of an opgen target: target status,
minimum phase, emit function. -/
structure TargetSpec where
  toStatus : Status
  minPhase : Phase
  emitOp : ColumnName → Op

/-- From the source (opgen_column_name.go lines 21-32): the add path of the
ColumnName registration. -/
def columnNameAdd : TargetSpec :=
  { toStatus := .PUBLIC,
    minPhase := .PreCommitPhase,
    emitOp := fun this =>
      .setColumnName { TableID := this.TableID, ColumnID := this.ColumnID, Name := this.Name } }

/-- From the source (opgen_column_name.go lines 33-44): the drop path of the
ColumnName registration. -/
def columnNameDrop : TargetSpec :=
  { toStatus := .ABSENT,
    minPhase := .PostCommitPhase,
    emitOp := fun this =>
      .setColumnName { TableID := this.TableID, ColumnID := this.ColumnID, Name := this.Name } }

/-- From the source (opgen_column_name.go lines 18-46): `opRegistry.register`
pairs the add and drop target specs for `scpb.ColumnName`. -/
structure ElemRegistration where
  addSpec : TargetSpec
  dropSpec : TargetSpec

/-- From the source: the registration performed by the file's init function. -/
def columnNameRegistration : ElemRegistration :=
  { addSpec := columnNameAdd, dropSpec := columnNameDrop }

end Opgen

/-! ## Helper lemmas -/

theorem displayName_if (row : String × Bool) :
    (if row.2 then row.1 ++ "(r)" else row.1) = displayName row := by
  rcases row with ⟨n, b⟩
  cases b <;> simp [displayName]

theorem spStatus_go (rs : List (String × Bool)) (acc : String) :
    rs.foldl spStatusStep (acc, ">", true)
      = (String.intercalate.go acc ">" (rs.map displayName), ">", true) := by
  induction rs generalizing acc with
  | nil => simp [String.intercalate.go]
  | cons r rs ih =>
    have h1 : spStatusStep (acc, ">", true) r = (acc ++ ">" ++ displayName r, ">", true) := by
      simp [spStatusStep, displayName_if]
    simp only [List.foldl_cons, List.map_cons, h1, ih, String.intercalate.go]

theorem showSavepointStatus_eq_spec (rows : List (String × Bool)) :
    showSavepointStatus rows = savepointDisplaySpec rows := by
  cases rows with
  | nil => rfl
  | cons r rs =>
    have h1 : spStatusStep ("", "", false) r = (displayName r, ">", true) := by
      simp [spStatusStep, displayName_if]
    simp only [showSavepointStatus, List.foldl_cons, h1, spStatus_go,
      savepointDisplaySpec, List.isEmpty_cons, List.map_cons, String.intercalate]
    simp

theorem updateProgress_bounds (rows : List Int) (bar bar' : Array Char)
    (h : updateProgress rows bar = some bar') :
    (∀ n ∈ rows, 1 ≤ n ∧ n ≤ (bar.size : Int) ∧ (n - 1).toNat < bar.size)
      ∧ bar'.size = bar.size := by
  induction rows generalizing bar with
  | nil =>
    simp only [updateProgress, Option.some.injEq] at h
    subst h
    exact ⟨by simp, rfl⟩
  | cons n rest ih =>
    simp only [updateProgress] at h
    by_cases hcond : n < 1 ∨ (bar.size : Int) < n
    · rw [if_pos (by simpa using hcond)] at h
      exact absurd h (by simp)
    · rw [if_neg (by simpa using hcond)] at h
      push_neg at hcond
      obtain ⟨h1, h2⟩ := hcond
      have hrec := ih (bar.setD (n - 1).toNat (Char.ofNat 35)) h
      refine ⟨?_, by simpa using hrec.2⟩
      intro m hm
      rcases List.mem_cons.mp hm with rfl | hm
      · exact ⟨h1, h2, by omega⟩
      · have := hrec.1 m hm
        simpa using this

theorem execStmt_write_success (s : Session) (h : s.txnState = .Open) (op : Nat) :
    execStmt s (.write op .success) = ({ s with writes := s.writes ++ [op] }, none) := by
  rcases s with ⟨ts, stack, writes, committed, epoch⟩
  obtain rfl : ts = .Open := h
  rfl

theorem runWrites_open (s : Session) (h : s.txnState = .Open) (ops : List Nat) :
    runWrites s ops = { s with writes := s.writes ++ ops } := by
  induction ops generalizing s with
  | nil => simp [runWrites, runStmts]
  | cons op ops ih =>
    have hstep := execStmt_write_success s h op
    have hnext : ({ s with writes := s.writes ++ [op] } : Session).txnState = .Open := h
    simp only [runWrites, List.map_cons, runStmts, List.foldl_cons] at ih ⊢
    rw [hstep]
    simp only [ih _ hnext]
    simp

theorem popToSavepoint_suffix (l : List Savepoint) (n : String) (l' : List Savepoint)
    (h : popToSavepoint l n = some l') : l' <:+ l := by
  induction l with
  | nil => exact Option.noConfusion h
  | cons sp rest ih =>
    simp only [popToSavepoint] at h
    split at h
    · cases h; exact List.suffix_refl _
    · exact (ih h).trans (List.suffix_cons sp rest)

theorem popToRestart_suffix (l l' : List Savepoint) (h : popToRestart l = some l') :
    l' <:+ l := by
  induction l with
  | nil => exact Option.noConfusion h
  | cons sp rest ih =>
    simp only [popToRestart] at h
    split at h
    · cases h; exact List.suffix_refl _
    · exact (ih h).trans (List.suffix_cons sp rest)

theorem popToRestart_head (l l' : List Savepoint) (h : popToRestart l = some l') :
    ∃ sp rest, l' = sp :: rest ∧ sp.isRestart = true := by
  induction l with
  | nil => exact Option.noConfusion h
  | cons sp rest ih =>
    simp only [popToRestart] at h
    split at h
    · cases h; exact ⟨sp, rest, rfl, by assumption⟩
    · exact ih h

theorem popToRestart_isSome (l : List Savepoint) (sp : Savepoint) (hmem : sp ∈ l)
    (hr : sp.isRestart = true) : (popToRestart l).isSome := by
  induction l with
  | nil => simp at hmem
  | cons x rest ih =>
    simp only [popToRestart]
    split
    · simp
    · rcases List.mem_cons.mp hmem with rfl | hmem'
      · simp_all
      · exact ih hmem'

theorem popToRestart_none (l : List Savepoint) (h : ∀ sp ∈ l, sp.isRestart = false) :
    popToRestart l = none := by
  induction l with
  | nil => rfl
  | cons x rest ih =>
    simp only [popToRestart]
    rw [if_neg (by simp [h x (by simp)])]
    exact ih (fun sp hsp => h sp (List.mem_cons_of_mem x hsp))

theorem suffix_dropLast_mem (l l' : List α) (h : l' <:+ l) (x : α)
    (hx : x ∈ l'.dropLast) : x ∈ l.dropLast := by
  obtain ⟨t, rfl⟩ := h
  rcases eq_or_ne l' [] with rfl | hne
  · simp at hx
  · rw [List.dropLast_append_of_ne_nil t hne]
    exact List.mem_append_right t hx

theorem restartAtBottom_suffix (l l' : List Savepoint) (h : l' <:+ l)
    (hl : restartAtBottom l) : restartAtBottom l' :=
  fun sp hsp => hl sp (suffix_dropLast_mem l l' h sp hsp)

theorem restartAtBottom_nil : restartAtBottom [] := by
  intro sp hsp
  simp at hsp

theorem execStmt_stack_shape (s : Session) (c : Stmt) :
    (execStmt s c).1.stack = s.stack
      ∨ (execStmt s c).1.stack = []
      ∨ (∃ n r, (execStmt s c).1.stack = Savepoint.mk n r s.writes.length :: s.stack
            ∧ (r = true → s.stack = []))
      ∨ (execStmt s c).1.stack <:+ s.stack := by
  rcases s with ⟨ts, stack, writes, committed, epoch⟩
  cases ts with
  | NoTxn =>
    cases c with
    | begin => exact Or.inr (Or.inl rfl)
    | commit storeOk => exact Or.inl rfl
    | rollback => exact Or.inl rfl
    | savepoint n r => exact Or.inl rfl
    | release n =>
      simp only [execStmt]
      split <;> exact Or.inl rfl
    | rollbackTo n =>
      simp only [execStmt]
      split <;> exact Or.inl rfl
    | write op outcome => cases outcome <;> exact Or.inl rfl
  | Open =>
    cases c with
    | begin => exact Or.inl rfl
    | commit storeOk => cases storeOk <;> simp [execStmt]
    | rollback => exact Or.inr (Or.inl rfl)
    | savepoint n r =>
      simp only [execStmt]
      split
      · exact Or.inl rfl
      · rename_i hcond
        refine Or.inr (Or.inr (Or.inl ⟨n, r, rfl, fun hr => ?_⟩))
        subst hr
        simp only [Bool.true_and, Bool.or_eq_true, Bool.not_eq_true'] at hcond
        push_neg at hcond
        simpa [List.isEmpty_iff] using hcond.1
    | release n =>
      simp only [execStmt]
      cases hpop : popToSavepoint stack n with
      | none => exact Or.inl rfl
      | some found =>
        refine Or.inr (Or.inr (Or.inr ?_))
        exact (List.tail_suffix found).trans (popToSavepoint_suffix stack n found hpop)
    | rollbackTo n =>
      simp only [execStmt]
      cases hpop : popToSavepoint stack n with
      | none => exact Or.inl rfl
      | some found =>
        exact Or.inr (Or.inr (Or.inr (popToSavepoint_suffix stack n found hpop)))
    | write op outcome =>
      cases outcome with
      | success => exact Or.inl rfl
      | nonRetryable => exact Or.inl rfl
      | retryable =>
        simp only [execStmt]
        cases hpop : popToRestart stack with
        | none => exact Or.inl rfl
        | some found =>
          exact Or.inr (Or.inr (Or.inr (popToRestart_suffix stack found hpop)))
  | Aborted =>
    cases c with
    | rollback => exact Or.inr (Or.inl rfl)
    | rollbackTo n =>
      simp only [execStmt]
      cases hpop : popToSavepoint stack n with
      | none => exact Or.inl rfl
      | some found =>
        exact Or.inr (Or.inr (Or.inr (popToSavepoint_suffix stack n found hpop)))
    | begin => exact Or.inl rfl
    | commit storeOk => exact Or.inl rfl
    | savepoint n r => exact Or.inl rfl
    | release n => exact Or.inl rfl
    | write op outcome => exact Or.inl rfl

theorem execStmt_preserves_restartAtBottom (s : Session) (c : Stmt)
    (h : restartAtBottom s.stack) : restartAtBottom ((execStmt s c).1).stack := by
  rcases execStmt_stack_shape s c with heq | heq | ⟨n, r, heq, hcond⟩ | hsuf
  · rw [heq]; exact h
  · rw [heq]; exact restartAtBottom_nil
  · rw [heq]
    cases r with
    | true =>
      rw [hcond rfl]
      intro sp hsp
      simp at hsp
    | false =>
      intro sp hsp
      cases hstack : s.stack with
      | nil =>
        rw [hstack] at hsp
        simp at hsp
      | cons y t =>
        rw [hstack] at hsp
        rw [List.dropLast_cons_of_ne_nil (by simp)] at hsp
        rcases List.mem_cons.mp hsp with rfl | hsp'
        · rfl
        · exact h sp (hstack ▸ hsp')
  · exact restartAtBottom_suffix s.stack _ hsuf h

theorem runStmts_preserves_restartAtBottom (s : Session) (stmts : List Stmt)
    (h : restartAtBottom s.stack) : restartAtBottom (runStmts s stmts).stack := by
  induction stmts generalizing s with
  | nil => exact h
  | cons c cs ih =>
    simp only [runStmts, List.foldl_cons] at ih ⊢
    exact ih _ (execStmt_preserves_restartAtBottom s c h)

theorem reachable_restartAtBottom (s : Session) (h : Reachable s) :
    restartAtBottom s.stack := by
  obtain ⟨stmts, rfl⟩ := h
  exact runStmts_preserves_restartAtBottom initSession stmts restartAtBottom_nil

theorem popToName_map (l : List Savepoint) (n : String) :
    popToName (l.map (fun sp => (sp.name, sp.isRestart))) n
      = Option.map (List.map (fun sp => (sp.name, sp.isRestart))) (popToSavepoint l n) := by
  induction l with
  | nil => rfl
  | cons sp rest ih =>
    simp only [List.map_cons, popToName, popToSavepoint]
    by_cases hn : sp.name = n
    · rw [if_pos hn, if_pos hn]
      rfl
    · rw [if_neg hn, if_neg hn]
      exact ih

theorem tableStep_sim (s : Session) (c : Stmt) (p : TxnState × List (String × Bool))
    (hw : s.writes = []) (h : tableStep (absSession s) c = some p) :
    absSession (execStmt s c).1 = p ∧ (execStmt s c).1.writes = [] := by
  rcases s with ⟨ts, stack, writes, committed, epoch⟩
  obtain rfl : writes = [] := hw
  cases ts with
  | NoTxn =>
    cases c with
    | begin => obtain rfl := Option.some.inj h; exact ⟨rfl, rfl⟩
    | commit storeOk => exact Option.noConfusion h
    | rollback => exact Option.noConfusion h
    | savepoint n r => exact Option.noConfusion h
    | release n => exact Option.noConfusion h
    | rollbackTo n => exact Option.noConfusion h
    | write op outcome => exact Option.noConfusion h
  | Open =>
    cases c with
    | begin => exact Option.noConfusion h
    | commit storeOk =>
      cases storeOk with
      | false => obtain rfl := Option.some.inj h; exact ⟨rfl, rfl⟩
      | true => obtain rfl := Option.some.inj h; exact ⟨rfl, rfl⟩
    | rollback => obtain rfl := Option.some.inj h; exact ⟨rfl, rfl⟩
    | savepoint n r =>
      cases r with
      | false => obtain rfl := Option.some.inj h; exact ⟨rfl, rfl⟩
      | true =>
        cases stack with
        | nil => obtain rfl := Option.some.inj h; exact ⟨rfl, rfl⟩
        | cons sp rest => obtain rfl := Option.some.inj h; exact ⟨rfl, rfl⟩
    | release n =>
      cases hpop : popToSavepoint stack n with
      | none =>
        simp only [absSession, tableStep, popToName_map, hpop, Option.map_none'] at h
        obtain rfl := Option.some.inj h
        refine ⟨?_, ?_⟩ <;> simp [execStmt, hpop, absSession]
      | some found =>
        simp only [absSession, tableStep, popToName_map, hpop, Option.map_some'] at h
        obtain rfl := Option.some.inj h
        refine ⟨?_, ?_⟩ <;> simp [execStmt, hpop, absSession]
    | rollbackTo n =>
      cases hpop : popToSavepoint stack n with
      | none =>
        simp only [absSession, tableStep, popToName_map, hpop, Option.map_none'] at h
        obtain rfl := Option.some.inj h
        refine ⟨?_, ?_⟩ <;> simp [execStmt, hpop, absSession]
      | some found =>
        simp only [absSession, tableStep, popToName_map, hpop, Option.map_some'] at h
        obtain rfl := Option.some.inj h
        refine ⟨?_, ?_⟩ <;> simp [execStmt, hpop, absSession]
    | write op outcome => exact Option.noConfusion h
  | Aborted =>
    cases c with
    | begin => obtain rfl := Option.some.inj h; exact ⟨rfl, rfl⟩
    | commit storeOk => obtain rfl := Option.some.inj h; exact ⟨rfl, rfl⟩
    | rollback => obtain rfl := Option.some.inj h; exact ⟨rfl, rfl⟩
    | savepoint n r => obtain rfl := Option.some.inj h; exact ⟨rfl, rfl⟩
    | release n => obtain rfl := Option.some.inj h; exact ⟨rfl, rfl⟩
    | rollbackTo n =>
      cases hpop : popToSavepoint stack n with
      | none =>
        simp only [absSession, tableStep, popToName_map, hpop, Option.map_none'] at h
        obtain rfl := Option.some.inj h
        refine ⟨?_, ?_⟩ <;> simp [execStmt, hpop, absSession]
      | some found =>
        simp only [absSession, tableStep, popToName_map, hpop, Option.map_some'] at h
        obtain rfl := Option.some.inj h
        refine ⟨?_, ?_⟩ <;> simp [execStmt, hpop, absSession]
    | write op outcome => exact Option.noConfusion h

theorem tableFold_sim (stmts : List Stmt) (s : Session) (p : TxnState × List (String × Bool))
    (hw : s.writes = []) (h : tableFold (absSession s) stmts = some p) :
    absSession (runStmts s stmts) = p := by
  induction stmts generalizing s with
  | nil =>
    obtain rfl := Option.some.inj h
    rfl
  | cons c cs ih =>
    simp only [tableFold] at h
    cases hstep : tableStep (absSession s) c with
    | none => rw [hstep] at h; exact Option.noConfusion h
    | some q =>
      rw [hstep] at h
      obtain ⟨habs, hw'⟩ := tableStep_sim s c q hw hstep
      simp only [runStmts, List.foldl_cons] at ih ⊢
      exact ih _ hw' (by rw [habs]; exact h)

/-! ## Claims -/

/-- C1: for every statement sequence covered by the section 4.1 transition
table from the initial NoTxn state — in particular every covered sequence of
control statements, since the table fold is undefined on ordinary
statements — the TxnState observed after executing the sequence through the
controller equals the state computed by folding the sequence through the
table. -/
theorem txn_state_follows_table (stmts : List Stmt) (p : TxnState × List (String × Bool))
    (h : tableFold (.NoTxn, []) stmts = some p) :
    (runStmts initSession stmts).txnState = p.1 := by
  have hsim := tableFold_sim stmts initSession p rfl h
  have hfst := congrArg Prod.fst hsim
  simpa [absSession] using hfst

/-- C1 witness: the control sequence BEGIN; SAVEPOINT a; ROLLBACK TO a;
COMMIT is covered by the table, which predicts NoTxn, and the controller
ends in NoTxn. -/
theorem txn_state_follows_table_witness :
    tableFold (.NoTxn, []) [.begin, .savepoint "a" false, .rollbackTo "a", .commit true]
        = some (.NoTxn, [])
      ∧ (runStmts initSession
          [.begin, .savepoint "a" false, .rollbackTo "a", .commit true]).txnState = .NoTxn :=
  ⟨rfl, txn_state_follows_table _ (.NoTxn, []) rfl⟩

/-- C2: in an open transaction, after writes W1, a savepoint, writes W2 and a
rollback to that savepoint, the transaction write log holds exactly the
prior writes and W1: every effect of W2 is gone, every effect of W1 is
visible, and the transaction is still open. -/
theorem rollback_to_savepoint_round_trip (s : Session) (h : s.txnState = .Open)
    (w1 w2 : List Nat) (n : String) :
    (execStmt (runWrites ((execStmt (runWrites s w1) (.savepoint n false)).1) w2)
        (.rollbackTo n)).1.writes = s.writes ++ w1
      ∧ (execStmt (runWrites ((execStmt (runWrites s w1) (.savepoint n false)).1) w2)
          (.rollbackTo n)).1.txnState = .Open := by
  rcases s with ⟨ts, stack0, writes0, committed0, epoch0⟩
  obtain rfl : ts = .Open := h
  rw [runWrites_open _ rfl w1]
  have hsp : execStmt
      ({ txnState := .Open, stack := stack0, writes := writes0 ++ w1,
         committed := committed0, epoch := epoch0 } : Session) (.savepoint n false)
      = ({ txnState := .Open,
           stack := ⟨n, false, (writes0 ++ w1).length⟩ :: stack0,
           writes := writes0 ++ w1, committed := committed0, epoch := epoch0 }, none) := rfl
  rw [hsp]
  rw [runWrites_open _ rfl w2]
  simp only [execStmt, popToSavepoint, if_pos rfl]
  constructor
  · show List.take (writes0 ++ w1).length ((writes0 ++ w1) ++ w2) = writes0 ++ w1
    exact List.take_left (writes0 ++ w1) w2
  · rfl

/-- C2 witness: from a freshly opened transaction, write 10, create savepoint
sp, write 20 and roll back to sp: only the first write remains and the
transaction is still open. -/
theorem rollback_to_savepoint_round_trip_witness :
    (execStmt (runWrites ((execStmt (runWrites (execStmt initSession .begin).1 [10])
          (.savepoint "sp" false)).1) [20]) (.rollbackTo "sp")).1.writes
        = (execStmt initSession .begin).1.writes ++ [10]
      ∧ (execStmt (runWrites ((execStmt (runWrites (execStmt initSession .begin).1 [10])
          (.savepoint "sp" false)).1) [20]) (.rollbackTo "sp")).1.txnState = .Open :=
  rollback_to_savepoint_round_trip (execStmt initSession .begin).1 rfl [10] [20] "sp"

/-- C4 counterexample: after BEGIN; SAVEPOINT a; RELEASE a — two prior
statements, both successfully executed, one of them a successful plain
SAVEPOINT — the stack is empty again and no write has occurred, so the
placement rule of spec section 4.2 admits a restart savepoint: the request
succeeds (no error, and the stack changes), contradicting the claim that it
must fail with InvalidRestartPlacementError. -/
theorem restart_after_release_counterexample :
    (execStmt (runStmts initSession [.begin]) (.savepoint "a" false)).2 = none
      ∧ (execStmt (runStmts initSession [.begin, .savepoint "a" false]) (.release "a")).2 = none
      ∧ (runStmts initSession [.begin, .savepoint "a" false, .release "a"]).txnState = .Open
      ∧ (execStmt (runStmts initSession [.begin, .savepoint "a" false, .release "a"])
          (.savepoint "r" true)).2 = none
      ∧ (execStmt (runStmts initSession [.begin, .savepoint "a" false, .release "a"])
          (.savepoint "r" true)).2 ≠ some .InvalidRestartPlacementError
      ∧ (execStmt (runStmts initSession [.begin, .savepoint "a" false, .release "a"])
          (.savepoint "r" true)).1
          ≠ runStmts initSession [.begin, .savepoint "a" false, .release "a"] := by
  decide

/-- C4 amended: in an open transaction whose savepoint stack is non-empty or
in which writes have already been issued (in particular after a successful
plain SAVEPOINT still on the stack, or after a write), a request to create a
restart savepoint fails with InvalidRestartPlacementError and leaves the
session unchanged. -/
theorem restart_placement_guard (s : Session) (n : String) (h : s.txnState = .Open)
    (hprior : s.stack ≠ [] ∨ s.writes ≠ []) :
    execStmt s (.savepoint n true) = (s, some .InvalidRestartPlacementError) := by
  rcases s with ⟨ts, stack, writes, committed, epoch⟩
  obtain rfl : ts = .Open := h
  simp only [execStmt]
  rw [if_pos]
  rcases hprior with hne | hne <;> simp_all

/-- C4 amended witness: with savepoint a on the stack, SAVEPOINT r
(restart) fails with InvalidRestartPlacementError and changes nothing. -/
theorem restart_placement_guard_witness :
    execStmt (runStmts initSession [.begin, .savepoint "a" false]) (.savepoint "r" true)
      = (runStmts initSession [.begin, .savepoint "a" false],
         some .InvalidRestartPlacementError) :=
  restart_placement_guard _ "r" rfl (Or.inl (by decide))

/-- C5 counterexample: in an aborted transaction (BEGIN then a
non-retryable failure) the name x is absent from the stack, yet RELEASE
SAVEPOINT x is rejected with TransactionAbortedError, not
SavepointNotFoundError, contradicting the claim for every session. -/
theorem release_in_aborted_counterexample :
    (runStmts initSession [.begin, .write 0 .nonRetryable]).txnState = .Aborted
      ∧ popToSavepoint (runStmts initSession [.begin, .write 0 .nonRetryable]).stack "x" = none
      ∧ (execStmt (runStmts initSession [.begin, .write 0 .nonRetryable]) (.release "x")).2
          = some .TransactionAbortedError
      ∧ (execStmt (runStmts initSession [.begin, .write 0 .nonRetryable]) (.release "x")).2
          ≠ some .SavepointNotFoundError := by
  decide

/-- C5 amended: for every session and every name absent from the savepoint
stack, ROLLBACK TO SAVEPOINT returns SavepointNotFoundError with the session
unchanged; RELEASE SAVEPOINT does the same except in the Aborted state,
where the statement is rejected with TransactionAbortedError; in every case
the session (state and stack) is unchanged. -/
theorem absent_savepoint_atomic_failure (s : Session) (n : String)
    (habs : popToSavepoint s.stack n = none) :
    execStmt s (.rollbackTo n) = (s, some .SavepointNotFoundError)
      ∧ (s.txnState ≠ .Aborted → execStmt s (.release n) = (s, some .SavepointNotFoundError))
      ∧ (s.txnState = .Aborted → execStmt s (.release n) = (s, some .TransactionAbortedError))
      ∧ (execStmt s (.release n)).1 = s := by
  rcases s with ⟨ts, stack, writes, committed, epoch⟩
  cases ts <;> simp_all [execStmt]

/-- C5 amended witness: in a freshly opened transaction the name z is
absent; ROLLBACK TO and RELEASE both fail with SavepointNotFoundError and
change nothing. -/
theorem absent_savepoint_atomic_failure_witness :
    execStmt (runStmts initSession [.begin]) (.rollbackTo "z")
        = (runStmts initSession [.begin], some .SavepointNotFoundError)
      ∧ ((runStmts initSession [.begin]).txnState ≠ .Aborted →
          execStmt (runStmts initSession [.begin]) (.release "z")
            = (runStmts initSession [.begin], some .SavepointNotFoundError))
      ∧ ((runStmts initSession [.begin]).txnState = .Aborted →
          execStmt (runStmts initSession [.begin]) (.release "z")
            = (runStmts initSession [.begin], some .TransactionAbortedError))
      ∧ (execStmt (runStmts initSession [.begin]) (.release "z")).1
          = runStmts initSession [.begin] :=
  absent_savepoint_atomic_failure _ "z" rfl

/-- C3: in a reachable open transaction, a statement failing with a
retryable error leaves the transaction Open with the savepoint stack
containing exactly the restart savepoint when one is on the stack, and
leaves the transaction Aborted when no restart savepoint is on the stack. -/
theorem retryable_failure_restart_contract (s : Session) (hreach : Reachable s)
    (hopen : s.txnState = .Open) (op : Nat) :
    ((∃ sp ∈ s.stack, sp.isRestart = true) →
        (execStmt s (.write op .retryable)).1.txnState = .Open
          ∧ ∃ sp ∈ s.stack, sp.isRestart = true
              ∧ (execStmt s (.write op .retryable)).1.stack = [sp])
      ∧ ((∀ sp ∈ s.stack, sp.isRestart = false) →
          (execStmt s (.write op .retryable)).1.txnState = .Aborted) := by
  have hbot := reachable_restartAtBottom s hreach
  rcases s with ⟨ts, stack, writes, committed, epoch⟩
  obtain rfl : ts = .Open := hopen
  constructor
  · rintro ⟨sp0, hmem, hr⟩
    obtain ⟨found, hfound⟩ :=
      Option.isSome_iff_exists.mp (popToRestart_isSome stack sp0 hmem hr)
    obtain ⟨r, rest, rfl, hrr⟩ := popToRestart_head stack _ hfound
    have hsuf := popToRestart_suffix stack _ hfound
    have hrest : rest = [] := by
      cases rest with
      | nil => rfl
      | cons y t =>
        have hmem' : r ∈ (r :: y :: t).dropLast := by simp
        have hfalse := hbot r (suffix_dropLast_mem stack _ hsuf r hmem')
        rw [hfalse] at hrr
        exact Bool.noConfusion hrr
    subst hrest
    refine ⟨?_, r, hsuf.subset (by simp), hrr, ?_⟩
    · simp only [execStmt, hfound]
    · simp only [execStmt, hfound]
  · intro hnone
    simp only [execStmt, popToRestart_none stack hnone]

/-- C3 witness: in the reachable session BEGIN; SAVEPOINT r (restart), a
retryable failure absorbs the error, keeps the transaction Open and leaves
exactly the restart savepoint on the stack. -/
theorem retryable_failure_restart_contract_witness :
    (execStmt (runStmts initSession [.begin, .savepoint "r" true])
        (.write 5 .retryable)).1.txnState = .Open
      ∧ ∃ sp ∈ (runStmts initSession [.begin, .savepoint "r" true]).stack,
          sp.isRestart = true
            ∧ (execStmt (runStmts initSession [.begin, .savepoint "r" true])
                (.write 5 .retryable)).1.stack = [sp] :=
  (retryable_failure_restart_contract _ ⟨[.begin, .savepoint "r" true], rfl⟩ rfl 5).1
    ⟨⟨"r", true, 0⟩, by decide, rfl⟩

/-- C6: `CurrentStatus` and `SavepointNames` are read-only: they return the
session unchanged, so any number of consecutive calls observe the same
transaction status and the same savepoint sequence. -/
theorem introspection_pure (s : Session) :
    (CurrentStatus s).2 = s ∧ (SavepointNames s).2 = s
      ∧ (CurrentStatus ((CurrentStatus s).2)).1 = (CurrentStatus s).1
      ∧ (SavepointNames ((SavepointNames s).2)).1 = (SavepointNames s).1 :=
  ⟨rfl, rfl, rfl, rfl⟩

/-- C7: `SavepointNames` returns the savepoints on the stack as ordered
(name, isRestart) pairs from top (head of the stack) to bottom, and the
harness rendering of that sequence is the top-first names joined by the
greater-than sign, with "(r)" suffixed to restart savepoints and "(none)"
for an empty stack. -/
theorem savepoint_names_rendering (s : Session) :
    (SavepointNames s).1 = s.stack.map (fun sp => (sp.name, sp.isRestart))
      ∧ showSavepointStatus ((SavepointNames s).1)
          = savepointDisplaySpec ((SavepointNames s).1) :=
  ⟨rfl, showSavepointStatus_eq_spec _⟩

/-- C8: the harness predicate `isOpenTxn` holds exactly for the Open and
NoTxn status strings, so in the NoTxn state (as in the Open state) the
harness writes the before-statement progress marker and `erase` resets the
progress bar to dots, while in the Aborted state it resets it to X. -/
theorem isOpenTxn_includes_noTxn (status : String) (bar : Array Char) :
    (isOpenTxn status = true ↔ (status = OpenStateStr ∨ status = NoTxnStateStr))
      ∧ isOpenTxn NoTxnStateStr = true
      ∧ writesBeforeMarker NoTxnStateStr = true
      ∧ erase NoTxnStateStr bar = bar.map (fun _ => '.')
      ∧ erase OpenStateStr bar = bar.map (fun _ => '.')
      ∧ erase AbortedStateStr bar = bar.map (fun _ => 'X') := by
  refine ⟨?_, rfl, rfl, rfl, rfl, rfl⟩
  simp [isOpenTxn, beq_iff_eq, OpenStateStr, NoTxnStateStr]

/-- C9: whenever `updateProgress` succeeds (does not fail the test), every
value n read from the progress table satisfied 1 <= n <= number of
statements, hence every array write hit index n-1 within the progress bar,
whose length is the number of statements and is preserved. -/
theorem update_progress_in_bounds (stmts : List String) (rows : List Int) (bar' : Array Char)
    (h : updateProgress rows (mkProgressBar stmts) = some bar') :
    (∀ n ∈ rows, 1 ≤ n ∧ n ≤ (stmts.length : Int)
        ∧ (n - 1).toNat < (mkProgressBar stmts).size)
      ∧ bar'.size = stmts.length := by
  have hsz : (mkProgressBar stmts).size = stmts.length := by simp [mkProgressBar]
  obtain ⟨hall, hsz2⟩ := updateProgress_bounds rows (mkProgressBar stmts) bar' h
  refine ⟨fun n hn => ?_, hsz ▸ hsz2⟩
  obtain ⟨ha, hb, hc⟩ := hall n hn
  exact ⟨ha, by rw [hsz] at hb; exact hb, hc⟩

/-- C9 witness: a two-statement input whose progress table holds rows 1 and
2; `updateProgress` succeeds and the bounds hold. -/
theorem update_progress_in_bounds_witness :
    (∀ n ∈ [(1 : Int), 2], 1 ≤ n ∧ n ≤ ((["a", "b"] : List String).length : Int)
        ∧ (n - 1).toNat < (mkProgressBar ["a", "b"]).size)
      ∧ (#['#', '#'] : Array Char).size = (["a", "b"] : List String).length :=
  update_progress_in_bounds ["a", "b"] [1, 2] #['#', '#'] rfl

/-- C10: the ColumnName op-generation registration emits, on the add path
(target status PUBLIC, minimum phase PreCommitPhase) and on the drop path
(target status ABSENT, minimum phase PostCommitPhase), a SetColumnName
operation whose TableID, ColumnID and Name are copied unchanged from the
element. -/
theorem column_name_opgen_registration :
    Opgen.columnNameRegistration.addSpec.toStatus = .PUBLIC
      ∧ Opgen.columnNameRegistration.addSpec.minPhase = .PreCommitPhase
      ∧ (∀ c : Opgen.ColumnName, Opgen.columnNameRegistration.addSpec.emitOp c
          = .setColumnName ⟨c.TableID, c.ColumnID, c.Name⟩)
      ∧ Opgen.columnNameRegistration.dropSpec.toStatus = .ABSENT
      ∧ Opgen.columnNameRegistration.dropSpec.minPhase = .PostCommitPhase
      ∧ (∀ c : Opgen.ColumnName, Opgen.columnNameRegistration.dropSpec.emitOp c
          = .setColumnName ⟨c.TableID, c.ColumnID, c.Name⟩) :=
  ⟨rfl, rfl, fun _ => rfl, rfl, rfl, fun _ => rfl⟩

end Cockroach
